import Mathlib

/-!
Verification development for the BankIQ banking-analytics agent core
(backend/bank_iq_agent.py).  The Python source is shallowly embedded:
floating-point numbers are modelled as exact rationals, Python strings as
Lean `String` (lists of characters compared by code point), JSON results as
an explicit inductive value, and the HTTP collaborators (FDIC search,
record fetch) as function-typed oracles passed to the embedded operations.
-/

set_option maxHeartbeats 1000000

/-! ### Generic string and list helpers (Python `in`, `upper`, `lower`, `split`, sort) -/

/-- Does the first character list occur as an initial segment of the second
(Python str.startswith, used to implement substring search)? -/
def seq_starts {α : Type} [DecidableEq α] : List α → List α → Bool
  | [], _ => true
  | _ :: _, [] => false
  | a :: as, b :: bs => a = b && seq_starts as bs

/-- Does the first list occur as a contiguous substring of the second
(Python `needle in haystack` on strings)? -/
def seq_has {α : Type} [DecidableEq α] (needle : List α) : List α → Bool
  | [] => seq_starts needle []
  | c :: t => seq_starts needle (c :: t) || seq_has needle t

/-- ASCII upper-casing of one character (Python `str.upper` on ASCII data). -/
def up_char (c : Char) : Char :=
  if 97 ≤ c.toNat ∧ c.toNat ≤ 122 then Char.ofNat (c.toNat - 32) else c

/-- ASCII lower-casing of one character (Python `str.lower` on ASCII data). -/
def low_char (c : Char) : Char :=
  if 65 ≤ c.toNat ∧ c.toNat ≤ 90 then Char.ofNat (c.toNat + 32) else c

/-- Python `s.upper()`. -/
def up_str (s : String) : String := String.mk (s.data.map up_char)

/-- Python `s.lower()`. -/
def low_str (s : String) : String := String.mk (s.data.map low_char)

/-- Python string order on code points: lexicographic, a proper initial
segment sorting first. -/
def lex_le : List Char → List Char → Bool
  | [], _ => true
  | _ :: _, [] => false
  | a :: as, b :: bs =>
    if a.toNat < b.toNat then true
    else if b.toNat < a.toNat then false
    else lex_le as bs

/-- Python `s.split(c)`: split at every occurrence of `c`, keeping empty parts. -/
def split_ch (c : Char) : List Char → List (List Char)
  | [] => [[]]
  | a :: t =>
    let r := split_ch c t
    if a = c then [] :: r
    else
      match r with
      | [] => [[a]]
      | h :: t2 => (a :: h) :: t2

/-- Accumulator for `split_ws`; `cur` holds the current word reversed. -/
def split_ws_go (cur : List Char) : List Char → List (List Char)
  | [] => if cur.isEmpty then [] else [cur.reverse]
  | c :: t =>
    if c = ' ' then
      if cur.isEmpty then split_ws_go [] t else cur.reverse :: split_ws_go [] t
    else split_ws_go (c :: cur) t

/-- Python `s.split()` with no argument: split on runs of blanks, no empty parts
(the source only ever feeds it space-separated names). -/
def split_ws (s : List Char) : List (List Char) := split_ws_go [] s

/-- Remove later duplicates, keeping the first occurrence of each element
(the seen-set loop of the source that dedups search terms in order). -/
def dedup_keep_first : List String → List String
  | [] => []
  | x :: t => x :: dedup_keep_first (t.filter (fun y => !(y == x)))
termination_by l => l.length
decreasing_by
  simp only [List.length_cons]
  exact Nat.lt_succ_of_le (List.length_filter_le _ _)

/-- Insert `x` into `l` immediately before the first element `y` with
`r x y = false`; `r x y` reads "x may sit before y". -/
def ins_by {α : Type} (r : α → α → Bool) (x : α) : List α → List α
  | [] => [x]
  | y :: t => if r x y then x :: y :: t else y :: ins_by r x t

/-- Stable insertion sort: for a total preorder test `r`, equal elements keep
their input order, exactly like the Python sorted builtin and list sort. -/
def sort_by {α : Type} (r : α → α → Bool) : List α → List α
  | [] => []
  | x :: t => ins_by r x (sort_by r t)

/-- Python `s.replace(pat, rep)` with a nonempty pattern `p0 :: ps`:
replace every occurrence, scanning left to right. -/
def replace_seq (p0 : Char) (ps rep : List Char) : List Char → List Char
  | [] => []
  | c :: t =>
    if seq_starts (p0 :: ps) (c :: t) then
      rep ++ replace_seq p0 ps rep (List.drop (ps.length + 1) (c :: t))
    else c :: replace_seq p0 ps rep t
termination_by l => l.length
decreasing_by
  · simp only [List.length_drop, List.length_cons]
    omega
  · simp only [List.length_cons]
    omega

/-! ### Compliance risk assessment: raw record, field extraction, derived ratios
(`compliance_risk_assessment`, source lines 920-1043) -/

/-- One FDIC financial record as consumed by `compliance_risk_assessment`:
each field either absent (`none`) or a number.  Field names are the FDIC keys
used by the source. -/
structure RawRecord where
  ROA : Option ℚ
  ROE : Option ℚ
  ASSET : Option ℚ
  EQTOT : Option ℚ
  LNLSNET : Option ℚ
  DEP : Option ℚ
  NCLNLS : Option ℚ
  LNATRES : Option ℚ
  RBCT1J : Option ℚ
  NIMY : Option ℚ
deriving DecidableEq

/-- Python `float(d.get(key, 0) or 0)`: a missing field becomes 0. -/
def num_or_zero : Option ℚ → ℚ
  | none => 0
  | some x => x

/-- Python `float(d.get(key, 1) or 1)`: a missing or zero field becomes 1
(used only for deposits). -/
def num_or_one : Option ℚ → ℚ
  | none => 1
  | some x => if x = 0 then 1 else x

/-- The local numeric variables of `compliance_risk_assessment` after field
extraction, with the variable names of the source. -/
structure BankData where
  roa : ℚ
  roe : ℚ
  assets : ℚ
  equity : ℚ
  loans : ℚ
  deposits : ℚ
  npl : ℚ
  allowance : ℚ
  tier1_raw : ℚ
  nim : ℚ
deriving DecidableEq

/-- Field-extraction block of `compliance_risk_assessment` (lines 921-938,
without the tier-1 unit conversion, which is `tier1_ratio`). -/
def extract (r : RawRecord) : BankData :=
  { roa := num_or_zero r.ROA
    roe := num_or_zero r.ROE
    assets := num_or_zero r.ASSET
    equity := num_or_zero r.EQTOT
    loans := num_or_zero r.LNLSNET
    deposits := num_or_one r.DEP
    npl := num_or_zero r.NCLNLS
    allowance := num_or_zero r.LNATRES
    tier1_raw := num_or_zero r.RBCT1J
    nim := num_or_zero r.NIMY }

/-- Tier-1 unit detection (lines 929-937): a raw value above 100 is taken as a
currency amount and divided by assets; otherwise it is already a percentage. -/
def tier1_ratio (d : BankData) : ℚ :=
  if d.tier1_raw > 100 then
    if d.assets > 0 then d.tier1_raw / d.assets * 100 else 0
  else d.tier1_raw

/-- The `capital_ratio` variable: the tier-1 ratio when available, otherwise
the leverage ratio equity/assets (lines 942-957). -/
def capital_ratio (d : BankData) : ℚ :=
  if tier1_ratio d > 0 then tier1_ratio d
  else if d.assets > 0 then d.equity / d.assets * 100 else 0

/-- NPL ratio (line 969). -/
def npl_ratio (d : BankData) : ℚ :=
  if d.loans > 0 then d.npl / d.loans * 100 else 0

/-- Coverage ratio (line 970): defaults to 100 when noncurrent loans is 0. -/
def coverage_ratio (d : BankData) : ℚ :=
  if d.npl > 0 then d.allowance / d.npl * 100 else 100

/-- Loan-to-deposit ratio (line 1010). -/
def ltd_ratio (d : BankData) : ℚ :=
  if d.deposits > 0 then d.loans / d.deposits * 100 else 0

/-! ### Compliance risk assessment: piecewise scoring curves (lines 940-1043) -/

/-- Capital score on the tier-1 curve (lines 945-954). -/
def capital_score_tier1 (r : ℚ) : ℚ :=
  if r ≥ 10 then 95 + min 5 ((r - 10) * 0.5)
  else if r ≥ 8 then 80 + (r - 8) * 7.5
  else if r ≥ 6 then 60 + (r - 6) * 10
  else if r ≥ 4.5 then 40 + (r - 4.5) * 13.3
  else max 10 (r * 8.9)

/-- Capital score on the leverage-ratio fallback curve (lines 959-966). -/
def capital_score_leverage (r : ℚ) : ℚ :=
  if r ≥ 8 then 90 + min 10 ((r - 8) * 1.25)
  else if r ≥ 5 then 70 + (r - 5) * 6.7
  else if r ≥ 4 then 50 + (r - 4) * 20
  else max 10 (r * 12.5)

/-- The capital-adequacy sub-score (lines 942-966). -/
def capital_score (d : BankData) : ℚ :=
  if tier1_ratio d > 0 then capital_score_tier1 (capital_ratio d)
  else capital_score_leverage (capital_ratio d)

/-- NPL sub-component of asset quality (lines 973-982). -/
def npl_score (r : ℚ) : ℚ :=
  if r < 0.5 then 95 + min 5 ((0.5 - r) * 10)
  else if r < 1 then 85 + (1 - r) * 20
  else if r < 2 then 65 + (2 - r) * 20
  else if r < 3 then 45 + (3 - r) * 20
  else max 10 (45 - (r - 3) * 10)

/-- Coverage sub-component of asset quality (lines 985-990). -/
def coverage_score (r : ℚ) : ℚ :=
  if r ≥ 100 then 90 + min 10 ((r - 100) * 0.1)
  else if r ≥ 70 then 60 + (r - 70) * 1
  else max 20 (r * 0.86)

/-- Asset-quality sub-score: 70 percent NPL, 30 percent coverage (line 992). -/
def asset_quality_score (d : BankData) : ℚ :=
  npl_score (npl_ratio d) * 0.7 + coverage_score (coverage_ratio d) * 0.3

/-- Earnings sub-score from ROA (lines 996-1007). -/
def earnings_score (roa : ℚ) : ℚ :=
  if roa ≥ 1.5 then 90 + min 10 ((roa - 1.5) * 6.7)
  else if roa ≥ 1.2 then 80 + (roa - 1.2) * 33.3
  else if roa ≥ 0.8 then 65 + (roa - 0.8) * 37.5
  else if roa ≥ 0.4 then 45 + (roa - 0.4) * 50
  else if roa ≥ 0 then max 20 (roa * 112.5)
  else 10

/-- Liquidity sub-score from the loan-to-deposit ratio (lines 1012-1023). -/
def liquidity_score (r : ℚ) : ℚ :=
  if 70 ≤ r ∧ r ≤ 85 then 95 + min 5 ((80 - |r - 77.5|) * 0.4)
  else if 60 ≤ r ∧ r < 70 then 75 + (r - 60) * 2
  else if 85 < r ∧ r ≤ 95 then 75 - (r - 85) * 2
  else if 95 < r ∧ r ≤ 100 then 55 - (r - 95) * 4
  else if r > 100 then max 20 (35 - (r - 100) * 1.5)
  else max 40 (55 + (r - 50) * 2)

/-- Sensitivity sub-score from the net interest margin (lines 1027-1034). -/
def sensitivity_score (nim : ℚ) : ℚ :=
  if nim ≥ 3.5 then 90 + min 10 ((nim - 3.5) * 10)
  else if nim ≥ 2.5 then 70 + (nim - 2.5) * 20
  else if nim ≥ 1.5 then 50 + (nim - 1.5) * 20
  else max 20 (nim * 33.3)

/-- CAMELS-inspired weighted composite (lines 1037-1043). -/
def overall_score (d : BankData) : ℚ :=
  capital_score d * 0.25 +
  asset_quality_score d * 0.25 +
  earnings_score d.roa * 0.20 +
  liquidity_score (ltd_ratio d) * 0.15 +
  sensitivity_score d.nim * 0.15

/-! ### Compliance risk assessment: regulatory alerts (lines 1045-1067) -/

/-- Alert severity: the `type` field of each alert dictionary. -/
inductive Severity where
  | info
  | warning
  | error
deriving DecidableEq

/-- One tag per distinct alert message template in lines 1047-1067. -/
inductive AlertKind where
  | tier1_below_minimum
  | leverage_below_minimum
  | roa_below_adequate
  | npl_exceeds_threshold
  | npl_above_guidance
  | ltd_exceeds_100
  | coverage_below_70
  | all_thresholds_met
deriving DecidableEq

/-- An alert: severity plus which message template it instantiates (the
source interpolates the offending metric value into the message text). -/
structure Alert where
  type : Severity
  kind : AlertKind
deriving DecidableEq

/-- The threshold rules of lines 1046-1064, appended in source order. -/
def alerts_body (tier1_ratio capital_ratio roa npl_ratio ltd_ratio coverage_ratio : ℚ) :
    List Alert :=
  (if tier1_ratio > 0 ∧ tier1_ratio < 6 then [⟨Severity.error, AlertKind.tier1_below_minimum⟩]
   else if capital_ratio < 4 then [⟨Severity.error, AlertKind.leverage_below_minimum⟩]
   else []) ++
  (if roa < 0.4 then [⟨Severity.warning, AlertKind.roa_below_adequate⟩] else []) ++
  (if npl_ratio > 3 then [⟨Severity.error, AlertKind.npl_exceeds_threshold⟩]
   else if npl_ratio > 2 then [⟨Severity.warning, AlertKind.npl_above_guidance⟩]
   else []) ++
  (if ltd_ratio > 100 then [⟨Severity.warning, AlertKind.ltd_exceeds_100⟩] else []) ++
  (if coverage_ratio < 70 then [⟨Severity.warning, AlertKind.coverage_below_70⟩] else [])

/-- Lines 1046-1067: the rule list, with the synthetic all-clear info alert
substituted when no rule fired (`if not alerts`). -/
def alerts_of (tier1_ratio capital_ratio roa npl_ratio ltd_ratio coverage_ratio : ℚ) :
    List Alert :=
  if alerts_body tier1_ratio capital_ratio roa npl_ratio ltd_ratio coverage_ratio = [] then
    [⟨Severity.info, AlertKind.all_thresholds_met⟩]
  else alerts_body tier1_ratio capital_ratio roa npl_ratio ltd_ratio coverage_ratio

/-- The alert list `compliance_risk_assessment` attaches to its response,
as a function of the extracted record. -/
def compliance_alerts (d : BankData) : List Alert :=
  alerts_of (tier1_ratio d) (capital_ratio d) d.roa (npl_ratio d) (ltd_ratio d)
    (coverage_ratio d)

/-! ### Identifier resolver `search_fdic_bank` (lines 102-181) -/

/-- The hardcoded CERT table of lines 113-125: key, CERT, official name. -/
def top_banks_cert : List (String × String × String) :=
  [("JPMORGAN", "628", "JPMorgan Chase Bank"),
   ("BANK OF AMERICA", "3510", "Bank of America"),
   ("WELLS FARGO", "3511", "Wells Fargo Bank"),
   ("CITIGROUP", "7213", "Citibank"),
   ("CITIBANK", "7213", "Citibank"),
   ("GOLDMAN SACHS", "32992", "Morgan Stanley Bank"),
   ("MORGAN STANLEY", "32992", "Morgan Stanley Bank"),
   ("U.S. BANCORP", "6548", "U.S. Bank"),
   ("PNC", "6384", "PNC Bank"),
   ("CAPITAL ONE", "33954", "Capital One"),
   ("TRUIST", "11069", "Truist Bank")]

/-- Lines 128-136: scan the table in order, returning the first entry whose
key occurs in the upper-cased input. -/
def find_static (up_name : String) : List (String × String × String) → Option (String × String)
  | [] => none
  | e :: t => if seq_has e.1.data up_name.data then some e.2 else find_static up_name t

/-- Stop words stripped from the name before building search terms (line 141). -/
def stop_words : List String :=
  ["CORP", "INC", "CO", "FINANCIAL", "BANCORP", "BANCSHARES", "GROUP", "CORPORATION",
   "COMPANY", "HOLDING", "HOLDINGS", "THE", "&", "AND"]

/-- Lines 139-158: the ordered, deduplicated FDIC search-term variants.  On an
all-blank name the source raises (and its caller returns an error result); the
model returns the empty term list there. -/
def search_terms (bank_name : String) : List String :=
  let words := split_ws (up_str bank_name).data
  match words with
  | [] => []
  | w0 :: _ =>
    let core_words0 := words.filter (fun w => !(stop_words.contains (String.mk w)))
    let core_words := if core_words0.isEmpty then [w0] else core_words0
    let c0 := core_words.headD []
    dedup_keep_first
      [String.mk (List.intercalate [' '] core_words),
       String.mk (c0 ++ " BANK".data),
       String.mk (c0 ++ " NATIONAL BANK".data),
       String.mk c0,
       up_str bank_name]

/-- Observable outcome of `search_fdic_bank`: either the zero-latency static
table hit, or entry into the dynamic FDIC registry search loop with the given
ordered search terms (each term is one HTTP search request). -/
inductive SearchOutcome where
  | static_hit (cert : String) (name : String)
  | dynamic (terms : List String)
deriving DecidableEq

/-- Lines 111-179 up to the point where network access starts: the resolution
path taken by `search_fdic_bank` for a given input name. -/
def search_fdic_bank (bank_name : String) : SearchOutcome :=
  match find_static (up_str bank_name) top_banks_cert with
  | some (c, n) => SearchOutcome.static_hit c n
  | none => SearchOutcome.dynamic (search_terms bank_name)

/-! ### Peer comparison `compare_banks` (lines 227-374) -/

/-- One record returned by the FDIC financials endpoint inside
`compare_banks`: the composite period-tagged `ID` string plus the numeric
fields, kept as the JSON key-value mapping the source indexes into. -/
structure FdicRec where
  id : String
  data : List (String × ℚ)
deriving DecidableEq

/-- Python record data get(key, dflt): field lookup with a default. -/
def rec_get (r : FdicRec) (k : String) (dflt : ℚ) : ℚ :=
  match r.data.find? (fun p => p.1 == k) with
  | some p => p.2
  | none => dflt

/-- The per-record metric computation of lines 325-341, dispatching on the
resolved metric key. -/
def metric_value (metric_key : String) (r : FdicRec) : ℚ :=
  if metric_key = "CALC_EFFICIENCY" then
    let nonii := rec_get r "NONII" 0
    let nimy := rec_get r "NIMY" 0
    let asset := rec_get r "ASSET" 1
    let revenue := if asset > 0 then nimy * asset / 100 else 0
    if revenue > 0 then |nonii| / revenue * 100 else 0
  else if metric_key = "CALC_LTD" then
    let lnlsnet := rec_get r "LNLSNET" 0
    let dep := rec_get r "DEP" 1
    if dep > 0 then lnlsnet / dep * 100 else 0
  else if metric_key = "CALC_EQUITY" then
    let eqtot := rec_get r "EQTOT" 0
    let asset := rec_get r "ASSET" 1
    if asset > 0 then eqtot / asset * 100 else 0
  else rec_get r metric_key 0

/-- Metric-name to FDIC-field mapping of lines 285-293. -/
def metric_map : List (String × String) :=
  [("ROA", "ROA"), ("ROE", "ROE"), ("NIM", "NIMY"),
   ("Efficiency Ratio", "CALC_EFFICIENCY"), ("Loan-to-Deposit", "CALC_LTD"),
   ("Equity Ratio", "CALC_EQUITY"), ("CRE Concentration", "NCRER")]

/-- Line 282: strip the mode tags from the requested metric name. -/
def strip_tags (metric : String) : String :=
  String.mk (replace_seq '[' "Q] ".data [] (replace_seq '[' "M] ".data [] metric.data))

/-- Lines 282-298: resolve the requested metric name to an FDIC field or a
calculated-metric key via case-insensitive substring match, first hit wins. -/
def resolve_metric_key (metric : String) : String :=
  let mk0 := strip_tags metric
  match metric_map.find? (fun kv => seq_has (low_str kv.1).data (low_str mk0).data) with
  | some kv => kv.2
  | none => mk0

/-- The `bank_certs_cache` fallback CERT table rebuilt on every call
(lines 239-252), in source order. -/
def bank_certs_cache : List (String × String) :=
  [("JPMorgan Chase", "628"), ("JPMORGAN CHASE BANK", "628"),
   ("Bank of America", "3510"), ("BANK OF AMERICA", "3510"),
   ("Wells Fargo", "3511"), ("WELLS FARGO BANK", "3511"),
   ("Citigroup", "7213"), ("CITIBANK", "7213"),
   ("Goldman Sachs", "33124"), ("GOLDMAN SACHS BANK", "33124"),
   ("Morgan Stanley", "65012"),
   ("U.S. Bancorp", "6548"), ("U.S. BANK", "6548"),
   ("PNC Financial", "6384"), ("PNC BANK", "6384"),
   ("Capital One", "4297"), ("CAPITAL ONE", "4297"),
   ("Truist Financial", "14291"), ("TRUIST BANK", "14291"),
   ("Regions Financial", "12368"), ("REGIONS FINANCIAL CORP", "12368"),
   ("Fifth Third Bancorp", "6672"), ("FIFTH THIRD BANCORP", "6672")]

/-- Line 257: exact dictionary-key lookup. -/
def lookup_exact (cache : List (String × String)) (name : String) : Option String :=
  (cache.find? (fun p => p.1 == name)).map (fun p => p.2)

/-- Lines 261-264: first cache entry whose upper-cased key contains, or is
contained in, the upper-cased name. -/
def lookup_contains (cache : List (String × String)) (name : String) : Option String :=
  (cache.find? (fun p =>
      seq_has (up_str p.1).data (up_str name).data ||
      seq_has (up_str name).data (up_str p.1).data)).map (fun p => p.2)

/-- The `get_cert` helper of lines 255-278: exact cache hit, then substring
cache hit, then the dynamic search collaborator (modelled by the `search`
oracle); a dynamic hit is inserted into the cache for later names. -/
def get_cert (search : String → Option String) (cache : List (String × String))
    (bank_name : String) : Option String × List (String × String) :=
  match lookup_exact cache bank_name with
  | some c => (some c, cache)
  | none =>
    match lookup_contains cache bank_name with
    | some c => (some c, cache)
    | none =>
      match search bank_name with
      | some c => (some c, cache ++ [(bank_name, c)])
      | none => (none, cache)

/-- Line 316: keep records whose `ID` contains 2023, 2024 or 2025. -/
def recent_filter (l : List FdicRec) : List FdicRec :=
  l.filter (fun r =>
    seq_has "2023".data r.id.data || seq_has "2024".data r.id.data ||
    seq_has "2025".data r.id.data)

/-- Ordering test for line 317 (`recent.sort(key=ID, reverse=True)`):
record `x` may sit before `y` when `y.id <= x.id`, which together with the
stable `sort_by` reproduces the stable descending sort of Python. -/
def rec_before (x y : FdicRec) : Bool := lex_le y.id.data x.id.data

/-- Can line 321 parse this `ID` (`ID.split('_')[1]`, then `int(month)`)
without raising?  Malformed IDs make the source abandon the record loop via
its per-bank `except`. -/
def well_formed_id (id : String) : Bool :=
  match split_ch '_' id.data with
  | _ :: date :: _ =>
    let m := (date.drop 4).take 2
    !m.isEmpty && m.all (fun c => 48 ≤ c.toNat && c.toNat ≤ 57)
  | _ => false

/-- Decimal value of a digit string. -/
def digits_val (l : List Char) : Nat :=
  l.foldl (fun acc c => acc * 10 + (c.toNat - 48)) 0

/-- Lines 320-322: the `YYYY-Qn` quarter label derived from the record `ID`
(`//` is Python floor division, hence `Int.fdiv`). -/
def quarter_of (id : String) : String :=
  match split_ch '_' id.data with
  | _ :: date :: _ =>
    let year := date.take 4
    let month : Int := digits_val ((date.drop 4).take 2)
    let q : Int := Int.fdiv (month - 1) 3 + 1
    String.mk year ++ "-Q" ++ toString q
  | _ => ""

/-- The records of one bank that the loop of lines 319-351 fully processes:
the 2023-2025 records, sorted descending by `ID`, first eight, cut at the
first record whose `ID` the quarter parsing rejects (the per-bank
`except` keeps the rows appended before the failure). -/
def good_recs (l : List FdicRec) : List FdicRec :=
  ((sort_by rec_before (recent_filter l)).take 8).takeWhile (fun r => well_formed_id r.id)

/-- The `bank_latest` entry for the records of one bank (lines 350-351): the value
of the first processed record, i.e. the one with the greatest recent `ID`. -/
def bank_latest_of (metric_key : String) (l : List FdicRec) : Option ℚ :=
  (good_recs l).head?.map (metric_value metric_key)

/-- One row of `chart_data` (lines 343-348). -/
structure ChartRow where
  bank : String
  quarter : String
  metric : String
  value : ℚ
deriving DecidableEq

/-- Python `round(x, 2)` (the source rounds a float; the model rounds the
exact rational, halves up). -/
def round2 (q : ℚ) : ℚ := ((round (q * 100) : ℤ) : ℚ) / 100

/-- Ordering test for line 355 (`chart_data.sort(key=Quarter)`): ascending
stable sort on the quarter label. -/
def row_before (a b : ChartRow) : Bool := lex_le a.quarter.data b.quarter.data

/-- Ordering test for line 358 (`sorted(bank_latest.items(), key=value,
reverse=True)`): descending stable sort on the latest value. -/
def val_before (a b : String × ℚ) : Bool := decide (b.2 ≤ a.2)

/-- The informational content of the textual analysis built in lines 358-364:
leader and laggard with their latest values, the spread, and whether the base
bank is stated to be positioned at the top (versus competitively). -/
structure Ranked where
  leader : String
  leader_value : ℚ
  laggard : String
  laggard_value : ℚ
  spread : ℚ
  base_at_top : Bool
deriving DecidableEq

/-- Last element of `b :: t` (Python `sorted_banks[-1]`). -/
def last_of {α : Type} (b : α) : List α → α
  | [] => b
  | y :: t => last_of y t

/-- Lines 357-364: rank the latest values descending; the first is the
leader, the last the laggard; `none` when no bank yielded a value. -/
def ranking_analysis (base_bank : String) (bank_latest : List (String × ℚ)) : Option Ranked :=
  match sort_by val_before bank_latest with
  | [] => none
  | b :: t =>
    let w := last_of b t
    some ⟨b.1, b.2, w.1, w.2, b.2 - w.2, base_bank == b.1⟩

/-- JSON values, for the shape of the serialized tool results. -/
inductive JVal where
  | null
  | str (s : String)
  | num (q : ℚ)
  | bool (b : Bool)
  | arr (items : List JVal)
  | obj (fields : List (String × JVal))

/-- Serialization of one chart row (lines 343-348). -/
def row_json (r : ChartRow) : JVal :=
  JVal.obj [("Bank", JVal.str r.bank), ("Quarter", JVal.str r.quarter),
            ("Metric", JVal.str r.metric), ("Value", JVal.num r.value)]

/-- Serialization of the analysis sentence of lines 361-364, keeping its
information content: the prose interpolates exactly these slots. -/
def ranked_json (metric_key : String) (rk : Ranked) : JVal :=
  JVal.obj [("metric_key", JVal.str metric_key),
            ("leader", JVal.str rk.leader), ("leader_value", JVal.num rk.leader_value),
            ("laggard", JVal.str rk.laggard), ("laggard_value", JVal.num rk.laggard_value),
            ("spread", JVal.num rk.spread),
            ("positioned", JVal.str (if rk.base_at_top then "at the top" else "competitively"))]

/-- Per-bank step of the loop in lines 304-353, threading the chart rows, the
`bank_latest` mapping and the mutable CERT cache. -/
def compare_step (search : String → Option String) (fetch : String → Option (List FdicRec))
    (metric_key metric_disp : String)
    (acc : List ChartRow × List (String × ℚ) × List (String × String)) (bank : String) :
    List ChartRow × List (String × ℚ) × List (String × String) :=
  match get_cert search acc.2.2 bank with
  | (none, cache2) => (acc.1, acc.2.1, cache2)
  | (some cert, cache2) =>
    match fetch cert with
    | none => (acc.1, acc.2.1, cache2)
    | some data =>
      let good := good_recs data
      let rows := good.map (fun rec =>
        ChartRow.mk bank (quarter_of rec.id) metric_disp (round2 (metric_value metric_key rec)))
      let latest2 :=
        match good with
        | [] => acc.2.1
        | rec :: _ =>
          if (acc.2.1.find? (fun p => p.1 == bank)).isSome then acc.2.1
          else acc.2.1 ++ [(bank, metric_value metric_key rec)]
      (acc.1 ++ rows, latest2, cache2)

/-- Lines 227-374: `compare_banks` as a function of its arguments and of the
two HTTP collaborators — `search` (the `search_fdic_bank` network path) and
`fetch` (the financials endpoint, `none` for a non-200 or raising call).
Returns the JSON object of lines 368-374. -/
def compare_banks (search : String → Option String) (fetch : String → Option (List FdicRec))
    (base_bank : String) (peer_banks : List String) (metric : String) : JVal :=
  let metric_key := resolve_metric_key metric
  let metric_disp := strip_tags metric
  let acc := (base_bank :: peer_banks).foldl
    (compare_step search fetch metric_key metric_disp) ([], [], bank_certs_cache)
  let chart_sorted := sort_by row_before acc.1
  let analysis_json :=
    match ranking_analysis base_bank acc.2.1 with
    | some rk => ranked_json metric_key rk
    | none => JVal.str ("Comparison of " ++ metric_key ++ " across selected banks.")
  JVal.obj [("data", JVal.arr (chart_sorted.map row_json)),
            ("base_bank", JVal.str base_bank),
            ("peer_banks", JVal.arr (peer_banks.map JVal.str)),
            ("analysis", analysis_json),
            ("source", JVal.str "FDIC_Real_Data")]

/-- Top-level keys of a JSON object result. -/
def json_keys : JVal → List String
  | JVal.obj kvs => kvs.map (fun p => p.1)
  | _ => []

/-- Field access on a JSON object result. -/
def json_field (k : String) : JVal → Option JVal
  | JVal.obj kvs => (kvs.find? (fun p => p.1 == k)).map (fun p => p.2)
  | _ => none

/-- The `Value` of the first `data` row of a comparison result. -/
def first_data_value (j : JVal) : Option ℚ :=
  match json_field "data" j with
  | some (JVal.arr (row :: _)) =>
    match json_field "Value" row with
    | some (JVal.num q) => some q
    | _ => none
  | _ => none

/-! ### Concrete collaborator data used by witnesses and counterexamples -/

/-- A fetch collaborator that fails every request. -/
def fetch_none : String → Option (List FdicRec) := fun _ => none

/-- A search collaborator that finds nothing. -/
def search_none : String → Option String := fun _ => none

/-- Provider record: 2024 Q1, ROA one percent. -/
def cx_rec1 : FdicRec := ⟨"628_20240331", [("ROA", 1)]⟩

/-- Provider record: same period key as `cx_rec1`, ROA two percent. -/
def cx_rec2 : FdicRec := ⟨"628_20240331", [("ROA", 2)]⟩

/-- Provider record with an older period ID, for the C10 witness. -/
def cx_rec3 : FdicRec := ⟨"628_20230630", [("ROA", 5)]⟩

/-- The record with the greatest period ID in the C10 witness list. -/
def cx_rec4 : FdicRec := ⟨"628_20240331", [("ROA", 7)]⟩

/-! ### Bounds of the scoring curves -/

theorem capital_score_tier1_bounds (r : ℚ) :
    10 ≤ capital_score_tier1 r ∧ capital_score_tier1 r ≤ 100 := by
  unfold capital_score_tier1
  split_ifs with h1 h2 h3 h4
  · have hle : min 5 ((r - 10) * 0.5) ≤ 5 := min_le_left _ _
    have hge : (0 : ℚ) ≤ min 5 ((r - 10) * 0.5) := le_min (by norm_num) (by nlinarith)
    constructor <;> linarith
  · constructor <;> nlinarith
  · constructor <;> nlinarith
  · constructor <;> nlinarith
  · exact ⟨le_max_left _ _, max_le (by norm_num) (by nlinarith)⟩

theorem capital_score_leverage_bounds (r : ℚ) :
    10 ≤ capital_score_leverage r ∧ capital_score_leverage r ≤ 100 := by
  unfold capital_score_leverage
  split_ifs with h1 h2 h3
  · have hle : min 10 ((r - 8) * 1.25) ≤ 10 := min_le_left _ _
    have hge : (0 : ℚ) ≤ min 10 ((r - 8) * 1.25) := le_min (by norm_num) (by nlinarith)
    constructor <;> linarith
  · constructor <;> nlinarith
  · constructor <;> nlinarith
  · exact ⟨le_max_left _ _, max_le (by norm_num) (by nlinarith)⟩

theorem capital_score_bounds (d : BankData) :
    10 ≤ capital_score d ∧ capital_score d ≤ 100 := by
  unfold capital_score
  split_ifs
  · exact capital_score_tier1_bounds _
  · exact capital_score_leverage_bounds _

theorem npl_score_bounds (r : ℚ) : 10 ≤ npl_score r ∧ npl_score r ≤ 100 := by
  unfold npl_score
  split_ifs with h1 h2 h3 h4
  · have hle : min 5 ((0.5 - r) * 10) ≤ 5 := min_le_left _ _
    have hge : (0 : ℚ) ≤ min 5 ((0.5 - r) * 10) := le_min (by norm_num) (by nlinarith)
    constructor <;> linarith
  · constructor <;> nlinarith
  · constructor <;> nlinarith
  · constructor <;> nlinarith
  · exact ⟨le_max_left _ _, max_le (by norm_num) (by nlinarith)⟩

theorem coverage_score_bounds (r : ℚ) : 20 ≤ coverage_score r ∧ coverage_score r ≤ 100 := by
  unfold coverage_score
  split_ifs with h1 h2
  · have hle : min 10 ((r - 100) * 0.1) ≤ 10 := min_le_left _ _
    have hge : (0 : ℚ) ≤ min 10 ((r - 100) * 0.1) := le_min (by norm_num) (by nlinarith)
    constructor <;> linarith
  · constructor <;> nlinarith
  · exact ⟨le_max_left _ _, max_le (by norm_num) (by nlinarith)⟩

theorem asset_quality_score_bounds (d : BankData) :
    0 ≤ asset_quality_score d ∧ asset_quality_score d ≤ 100 := by
  obtain ⟨h1, h2⟩ := npl_score_bounds (npl_ratio d)
  obtain ⟨h3, h4⟩ := coverage_score_bounds (coverage_ratio d)
  unfold asset_quality_score
  constructor <;> nlinarith

theorem earnings_score_bounds (roa : ℚ) : 10 ≤ earnings_score roa ∧ earnings_score roa ≤ 100 := by
  unfold earnings_score
  split_ifs with h1 h2 h3 h4 h5
  · have hle : min 10 ((roa - 1.5) * 6.7) ≤ 10 := min_le_left _ _
    have hge : (0 : ℚ) ≤ min 10 ((roa - 1.5) * 6.7) := le_min (by norm_num) (by nlinarith)
    constructor <;> linarith
  · constructor <;> nlinarith
  · constructor <;> nlinarith
  · constructor <;> nlinarith
  · exact ⟨le_trans (by norm_num) (le_max_left _ _), max_le (by norm_num) (by nlinarith)⟩
  · norm_num

theorem liquidity_score_bounds (r : ℚ) :
    20 ≤ liquidity_score r ∧ liquidity_score r ≤ 100 := by
  unfold liquidity_score
  split_ifs with h1 h2 h3 h4 h5
  · have habs : |r - 77.5| ≤ 7.5 := abs_le.mpr ⟨by linarith [h1.1], by linarith [h1.2]⟩
    have habs0 : (0 : ℚ) ≤ |r - 77.5| := abs_nonneg _
    have hle : min 5 ((80 - |r - 77.5|) * 0.4) ≤ 5 := min_le_left _ _
    have hge : (0 : ℚ) ≤ min 5 ((80 - |r - 77.5|) * 0.4) :=
      le_min (by norm_num) (by nlinarith)
    constructor <;> linarith
  · obtain ⟨ha, hb⟩ := h2
    constructor <;> nlinarith
  · obtain ⟨ha, hb⟩ := h3
    constructor <;> nlinarith
  · obtain ⟨ha, hb⟩ := h4
    constructor <;> nlinarith
  · exact ⟨le_max_left _ _, max_le (by norm_num) (by nlinarith)⟩
  · have hr100 : r ≤ 100 := by linarith [not_lt.mp h5]
    have hr95 : r ≤ 95 := by
      by_contra hc
      push_neg at hc
      exact h4 ⟨by linarith, hr100⟩
    have hr85 : r ≤ 85 := by
      by_contra hc
      push_neg at hc
      exact h3 ⟨by linarith, hr95⟩
    have hr70 : r < 70 := by
      by_contra hc
      push_neg at hc
      exact h1 ⟨by linarith, hr85⟩
    have hr60 : r < 60 := by
      by_contra hc
      push_neg at hc
      exact h2 ⟨by linarith, hr70⟩
    refine ⟨le_trans (by norm_num) (le_max_left _ _), max_le (by norm_num) (by nlinarith)⟩

theorem sensitivity_score_bounds (nim : ℚ) :
    20 ≤ sensitivity_score nim ∧ sensitivity_score nim ≤ 100 := by
  unfold sensitivity_score
  split_ifs with h1 h2 h3
  · have hle : min 10 ((nim - 3.5) * 10) ≤ 10 := min_le_left _ _
    have hge : (0 : ℚ) ≤ min 10 ((nim - 3.5) * 10) := le_min (by norm_num) (by nlinarith)
    constructor <;> linarith
  · constructor <;> nlinarith
  · constructor <;> nlinarith
  · exact ⟨le_max_left _ _, max_le (by norm_num) (by nlinarith)⟩

/-! ### The lexicographic string order used by the record sort -/

theorem lex_le_of_not (a b : List Char) (h : lex_le a b = false) : lex_le b a = true := by
  induction a generalizing b with
  | nil => simp [lex_le] at h
  | cons x xs ih =>
    cases b with
    | nil => rfl
    | cons y ys =>
      unfold lex_le at h ⊢
      by_cases h1 : x.toNat < y.toNat
      · rw [if_pos h1] at h
        cases h
      · rw [if_neg h1] at h
        by_cases h2 : y.toNat < x.toNat
        · rw [if_pos h2]
        · rw [if_neg h2] at h
          rw [if_neg h2, if_neg h1]
          exact ih ys h

theorem lex_le_trans (a b c : List Char) (h1 : lex_le a b = true) (h2 : lex_le b c = true) :
    lex_le a c = true := by
  induction a generalizing b c with
  | nil => rfl
  | cons x xs ih =>
    cases b with
    | nil => simp [lex_le] at h1
    | cons y ys =>
      cases c with
      | nil => simp [lex_le] at h2
      | cons z zs =>
        unfold lex_le at h1 h2 ⊢
        rcases Nat.lt_trichotomy x.toNat y.toNat with hxy | hxy | hxy
        · rcases Nat.lt_trichotomy y.toNat z.toNat with hyz | hyz | hyz
          · rw [if_pos (by omega : x.toNat < z.toNat)]
          · rw [if_pos (by omega : x.toNat < z.toNat)]
          · rw [if_neg (by omega : ¬ y.toNat < z.toNat),
                if_pos (by omega : z.toNat < y.toNat)] at h2
            cases h2
        · rw [if_neg (by omega : ¬ x.toNat < y.toNat),
              if_neg (by omega : ¬ y.toNat < x.toNat)] at h1
          rcases Nat.lt_trichotomy y.toNat z.toNat with hyz | hyz | hyz
          · rw [if_pos (by omega : x.toNat < z.toNat)]
          · rw [if_neg (by omega : ¬ y.toNat < z.toNat),
                if_neg (by omega : ¬ z.toNat < y.toNat)] at h2
            rw [if_neg (by omega : ¬ x.toNat < z.toNat),
                if_neg (by omega : ¬ z.toNat < x.toNat)]
            exact ih ys zs h1 h2
          · rw [if_neg (by omega : ¬ y.toNat < z.toNat),
                if_pos (by omega : z.toNat < y.toNat)] at h2
            cases h2
        · rw [if_neg (by omega : ¬ x.toNat < y.toNat),
              if_pos (by omega : y.toNat < x.toNat)] at h1
          cases h1

/-! ### The stable insertion sort shared by the three sorts in `compare_banks` -/

theorem ins_by_perm {α : Type} (r : α → α → Bool) (x : α) (l : List α) :
    List.Perm (ins_by r x l) (x :: l) := by
  induction l with
  | nil => exact List.Perm.refl _
  | cons y t ih =>
    unfold ins_by
    split_ifs with h
    · exact List.Perm.refl _
    · exact (List.Perm.cons y ih).trans (List.Perm.swap x y t)

theorem sort_by_perm {α : Type} (r : α → α → Bool) (l : List α) :
    List.Perm (sort_by r l) l := by
  induction l with
  | nil => exact List.Perm.refl _
  | cons x t ih => exact (ins_by_perm r x (sort_by r t)).trans (List.Perm.cons x ih)

theorem ins_by_pairwise {α : Type} (r : α → α → Bool)
    (htot : ∀ a b, r a b = false → r b a = true)
    (htrans : ∀ a b c, r a b = true → r b c = true → r a c = true)
    (x : α) (l : List α) (hl : l.Pairwise (fun a b => r a b = true)) :
    (ins_by r x l).Pairwise (fun a b => r a b = true) := by
  induction l with
  | nil => simp [ins_by]
  | cons y t ih =>
    obtain ⟨hy, ht⟩ := List.pairwise_cons.mp hl
    unfold ins_by
    split_ifs with h
    · refine List.pairwise_cons.mpr ⟨?_, hl⟩
      intro z hz
      rcases List.mem_cons.mp hz with rfl | hz2
      · exact h
      · exact htrans x y z h (hy z hz2)
    · refine List.pairwise_cons.mpr ⟨?_, ih ht⟩
      intro z hz
      have hz2 := (ins_by_perm r x t).mem_iff.mp hz
      rcases List.mem_cons.mp hz2 with rfl | hz3
      · refine htot z y ?_
        revert h
        cases r z y <;> simp
      · exact hy z hz3

theorem sort_by_pairwise {α : Type} (r : α → α → Bool)
    (htot : ∀ a b, r a b = false → r b a = true)
    (htrans : ∀ a b c, r a b = true → r b c = true → r a c = true)
    (l : List α) : (sort_by r l).Pairwise (fun a b => r a b = true) := by
  induction l with
  | nil => simp [sort_by]
  | cons x t ih => exact ins_by_pairwise r htot htrans x (sort_by r t) ih

theorem pairwise_head_rel {α : Type} {P : α → α → Prop} (b : α) (t : List α)
    (h : (b :: t).Pairwise P) : ∀ z ∈ b :: t, z = b ∨ P b z := by
  intro z hz
  rcases List.mem_cons.mp hz with rfl | hz2
  · exact Or.inl rfl
  · exact Or.inr ((List.pairwise_cons.mp h).1 z hz2)

theorem last_of_mem {α : Type} : ∀ (t : List α) (b : α), last_of b t ∈ b :: t := by
  intro t
  induction t with
  | nil => intro b; simp [last_of]
  | cons y ys ih =>
    intro b
    simp only [last_of]
    exact List.mem_cons_of_mem b (ih y)

theorem pairwise_last_rel {α : Type} {P : α → α → Prop} :
    ∀ (t : List α) (b : α), (b :: t).Pairwise P →
      ∀ z ∈ b :: t, z = last_of b t ∨ P z (last_of b t) := by
  intro t
  induction t with
  | nil =>
    intro b _ z hz
    rcases List.mem_cons.mp hz with rfl | hz2
    · exact Or.inl rfl
    · simp at hz2
  | cons y ys ih =>
    intro b h z hz
    obtain ⟨hb, h2⟩ := List.pairwise_cons.mp h
    rcases List.mem_cons.mp hz with rfl | hz2
    · exact Or.inr (hb _ (last_of_mem ys y))
    · exact ih y h2 z hz2

/-! ### Facts about the descending value sort used for leader and laggard -/

theorem val_before_total (a b : String × ℚ) (h : val_before a b = false) :
    val_before b a = true := by
  unfold val_before at h ⊢
  have h2 := of_decide_eq_false h
  exact decide_eq_true (le_of_not_le h2)

theorem val_before_trans (a b c : String × ℚ) (h1 : val_before a b = true)
    (h2 : val_before b c = true) : val_before a c = true := by
  unfold val_before at h1 h2 ⊢
  exact decide_eq_true (le_trans (of_decide_eq_true h2) (of_decide_eq_true h1))

/-! ### Segment evaluation of the tier-1 capital curve -/

theorem capital_seg_8_10 (r : ℚ) (h1 : 8 ≤ r) (h2 : r < 10) :
    capital_score_tier1 r = 80 + (r - 8) * 7.5 := by
  unfold capital_score_tier1
  rw [if_neg (by linarith : ¬ r ≥ 10), if_pos (by linarith : r ≥ 8)]

theorem capital_seg_6_8 (r : ℚ) (h1 : 6 ≤ r) (h2 : r < 8) :
    capital_score_tier1 r = 60 + (r - 6) * 10 := by
  unfold capital_score_tier1
  rw [if_neg (by linarith : ¬ r ≥ 10), if_neg (by linarith : ¬ r ≥ 8),
    if_pos (by linarith : r ≥ 6)]

theorem capital_seg_45_6 (r : ℚ) (h1 : 4.5 ≤ r) (h2 : r < 6) :
    capital_score_tier1 r = 40 + (r - 4.5) * 13.3 := by
  unfold capital_score_tier1
  rw [if_neg (by linarith : ¬ r ≥ 10), if_neg (by linarith : ¬ r ≥ 8),
    if_neg (by linarith : ¬ r ≥ 6), if_pos (by linarith : r ≥ 4.5)]

/-- A convex combination of two points of `[lo, hi)` stays in `[lo, hi)`. -/
theorem seg_convex (lo hi r1 r2 t : ℚ) (ha1 : lo ≤ r1) (hb1 : r1 < hi) (ha2 : lo ≤ r2)
    (hb2 : r2 < hi) (ht0 : 0 ≤ t) (ht1 : t ≤ 1) :
    lo ≤ (1 - t) * r1 + t * r2 ∧ (1 - t) * r1 + t * r2 < hi := by
  constructor
  · have h1 : (1 - t) * lo ≤ (1 - t) * r1 :=
      mul_le_mul_of_nonneg_left ha1 (by linarith)
    have h2 : t * lo ≤ t * r2 := mul_le_mul_of_nonneg_left ha2 ht0
    nlinarith
  · rcases eq_or_lt_of_le ht0 with h0 | h0
    · rw [← h0]
      simpa using hb1
    · have h1 : t * r2 < t * hi := (mul_lt_mul_left h0).mpr hb2
      have h2 : (1 - t) * r1 ≤ (1 - t) * hi :=
        mul_le_mul_of_nonneg_left (le_of_lt hb1) (by linarith)
      nlinarith

/-! ### Claim theorems -/

/-- C1: for every raw financial record, `compliance_risk_assessment` computes
the overall composite score as the weighted sum of the five component
sub-scores with the fixed weights 0.25, 0.25, 0.20, 0.15, 0.15 summing to 1,
and every sub-score as well as the composite score lies in [0, 100]. -/
theorem C1_composite_weighted_and_bounded (r : RawRecord) :
    overall_score (extract r) =
      capital_score (extract r) * 0.25 + asset_quality_score (extract r) * 0.25 +
        earnings_score (extract r).roa * 0.20 + liquidity_score (ltd_ratio (extract r)) * 0.15 +
        sensitivity_score (extract r).nim * 0.15 ∧
    (0.25 + 0.25 + 0.20 + 0.15 + 0.15 : ℚ) = 1 ∧
    (0 ≤ capital_score (extract r) ∧ capital_score (extract r) ≤ 100) ∧
    (0 ≤ asset_quality_score (extract r) ∧ asset_quality_score (extract r) ≤ 100) ∧
    (0 ≤ earnings_score (extract r).roa ∧ earnings_score (extract r).roa ≤ 100) ∧
    (0 ≤ liquidity_score (ltd_ratio (extract r)) ∧
      liquidity_score (ltd_ratio (extract r)) ≤ 100) ∧
    (0 ≤ sensitivity_score (extract r).nim ∧ sensitivity_score (extract r).nim ≤ 100) ∧
    (0 ≤ overall_score (extract r) ∧ overall_score (extract r) ≤ 100) := by
  obtain ⟨h1, h2⟩ := capital_score_bounds (extract r)
  obtain ⟨h3, h4⟩ := asset_quality_score_bounds (extract r)
  obtain ⟨h5, h6⟩ := earnings_score_bounds (extract r).roa
  obtain ⟨h7, h8⟩ := liquidity_score_bounds (ltd_ratio (extract r))
  obtain ⟨h9, h10⟩ := sensitivity_score_bounds (extract r).nim
  refine ⟨rfl, by norm_num, ⟨by linarith, h2⟩, ⟨h3, h4⟩, ⟨by linarith, h6⟩,
    ⟨by linarith, h8⟩, ⟨by linarith, h10⟩, ?_, ?_⟩
  · unfold overall_score
    linarith
  · unfold overall_score
    linarith

/-- C2: the tier-1 capital curve takes exactly its defined boundary value at
each segment boundary (10 gives 95, 8 gives 80, 6 gives 60, 4.5 gives 40,
before rounding and also through the full capital-score pipeline), and the
curve is linear (affine) strictly inside each interpolation segment. -/
theorem C2_capital_curve_boundaries :
    capital_score_tier1 10 = 95 ∧ capital_score_tier1 8 = 80 ∧
    capital_score_tier1 6 = 60 ∧ capital_score_tier1 4.5 = 40 ∧
    (∀ d : BankData, tier1_ratio d = 10 → capital_score d = 95) ∧
    (∀ r1 r2 t : ℚ, 8 ≤ r1 → r1 < 10 → 8 ≤ r2 → r2 < 10 → 0 ≤ t → t ≤ 1 →
      capital_score_tier1 ((1 - t) * r1 + t * r2) =
        (1 - t) * capital_score_tier1 r1 + t * capital_score_tier1 r2) ∧
    (∀ r1 r2 t : ℚ, 6 ≤ r1 → r1 < 8 → 6 ≤ r2 → r2 < 8 → 0 ≤ t → t ≤ 1 →
      capital_score_tier1 ((1 - t) * r1 + t * r2) =
        (1 - t) * capital_score_tier1 r1 + t * capital_score_tier1 r2) ∧
    (∀ r1 r2 t : ℚ, 4.5 ≤ r1 → r1 < 6 → 4.5 ≤ r2 → r2 < 6 → 0 ≤ t → t ≤ 1 →
      capital_score_tier1 ((1 - t) * r1 + t * r2) =
        (1 - t) * capital_score_tier1 r1 + t * capital_score_tier1 r2) := by
  refine ⟨by with_unfolding_all rfl, by with_unfolding_all rfl, by with_unfolding_all rfl,
    by with_unfolding_all rfl, ?_, ?_, ?_, ?_⟩
  · intro d h
    unfold capital_score capital_ratio
    rw [h]
    rw [if_pos (by norm_num : (10 : ℚ) > 0), if_pos (by norm_num : (10 : ℚ) > 0)]
    with_unfolding_all rfl
  · intro r1 r2 t ha1 hb1 ha2 hb2 ht0 ht1
    obtain ⟨hlo, hhi⟩ := seg_convex 8 10 r1 r2 t ha1 hb1 ha2 hb2 ht0 ht1
    rw [capital_seg_8_10 r1 ha1 hb1, capital_seg_8_10 r2 ha2 hb2,
      capital_seg_8_10 _ hlo hhi]
    ring
  · intro r1 r2 t ha1 hb1 ha2 hb2 ht0 ht1
    obtain ⟨hlo, hhi⟩ := seg_convex 6 8 r1 r2 t ha1 hb1 ha2 hb2 ht0 ht1
    rw [capital_seg_6_8 r1 ha1 hb1, capital_seg_6_8 r2 ha2 hb2,
      capital_seg_6_8 _ hlo hhi]
    ring
  · intro r1 r2 t ha1 hb1 ha2 hb2 ht0 ht1
    obtain ⟨hlo, hhi⟩ := seg_convex 4.5 6 r1 r2 t ha1 hb1 ha2 hb2 ht0 ht1
    rw [capital_seg_45_6 r1 ha1 hb1, capital_seg_45_6 r2 ha2 hb2,
      capital_seg_45_6 _ hlo hhi]
    ring

/-- Witness for C2: pushing a record with tier-1 ratio exactly 10 through the
capital-score pipeline yields exactly 95. -/
theorem C2_witness : capital_score ⟨0, 0, 0, 0, 0, 1, 0, 0, 10, 0⟩ = 95 :=
  C2_capital_curve_boundaries.2.2.2.2.1 ⟨0, 0, 0, 0, 0, 1, 0, 0, 10, 0⟩
    (by with_unfolding_all rfl)

/-- C3: whenever the noncurrent-loans field `NCLNLS` is 0, the coverage ratio
is exactly 100, for every value of the loss-allowance field `LNATRES`. -/
theorem C3_coverage_default (r : RawRecord) (h : r.NCLNLS = some 0) :
    coverage_ratio (extract r) = 100 := by
  unfold coverage_ratio extract
  simp only [h, num_or_zero]
  norm_num

/-- Witness for C3: a record with zero noncurrent loans and a nonzero loss
allowance still gets coverage ratio 100. -/
theorem C3_witness :
    coverage_ratio (extract ⟨none, none, none, none, none, none, some 0, some 5, none, none⟩) =
      100 :=
  C3_coverage_default ⟨none, none, none, none, none, none, some 0, some 5, none, none⟩ rfl

/-- C4: the tier-1 unit-detection step — a raw `RBCT1J` value above 100 is
treated as a currency amount and converted to `value / assets * 100` (0 when
assets is not positive); otherwise the value is used unchanged. -/
theorem C4_tier1_unit_detection (d : BankData) :
    (d.tier1_raw > 100 → 0 < d.assets → tier1_ratio d = d.tier1_raw / d.assets * 100) ∧
    (d.tier1_raw > 100 → d.assets ≤ 0 → tier1_ratio d = 0) ∧
    (d.tier1_raw ≤ 100 → tier1_ratio d = d.tier1_raw) := by
  unfold tier1_ratio
  refine ⟨fun h1 h2 => ?_, fun h1 h2 => ?_, fun h1 => ?_⟩
  · rw [if_pos h1, if_pos h2]
  · rw [if_pos h1, if_neg (not_lt.mpr h2)]
  · rw [if_neg (not_lt.mpr h1)]

/-- Witness for C4: a raw tier-1 amount of 250 thousand with assets 1000
thousand is converted to the ratio 25 percent. -/
theorem C4_witness :
    tier1_ratio ⟨0, 0, 1000, 0, 0, 1, 0, 0, 250, 0⟩ = 250 / 1000 * 100 :=
  (C4_tier1_unit_detection ⟨0, 0, 1000, 0, 0, 1, 0, 0, 250, 0⟩).1 (by norm_num) (by norm_num)

/-- C5: the alert list is a deterministic, order-stable function of the
derived metrics, never empty; each threshold rule is characterized exactly
(tier-1 available and below 6 gives an error, else a capital ratio — reported
as the leverage ratio — below 4 gives an error; ROA below 0.4 warns; NPL
above 3 errors, else above 2 warns; loan-to-deposit above 100 warns; coverage
below 70 warns); and the single synthetic info alert appears exactly when no
rule fires. -/
theorem C5_alert_rules (t c roa npl ltd cov : ℚ) :
    alerts_of t c roa npl ltd cov ≠ [] ∧
    (alerts_of t c roa npl ltd cov = [⟨Severity.info, AlertKind.all_thresholds_met⟩] ↔
      (¬(t > 0 ∧ t < 6) ∧ ¬(c < 4) ∧ ¬(roa < 0.4) ∧ ¬(npl > 3) ∧ ¬(npl > 2) ∧
        ¬(ltd > 100) ∧ ¬(cov < 70))) ∧
    ((⟨Severity.error, AlertKind.tier1_below_minimum⟩ : Alert) ∈
        alerts_of t c roa npl ltd cov ↔ (t > 0 ∧ t < 6)) ∧
    ((⟨Severity.error, AlertKind.leverage_below_minimum⟩ : Alert) ∈
        alerts_of t c roa npl ltd cov ↔ (¬(t > 0 ∧ t < 6) ∧ c < 4)) ∧
    ((⟨Severity.warning, AlertKind.roa_below_adequate⟩ : Alert) ∈
        alerts_of t c roa npl ltd cov ↔ roa < 0.4) ∧
    ((⟨Severity.error, AlertKind.npl_exceeds_threshold⟩ : Alert) ∈
        alerts_of t c roa npl ltd cov ↔ npl > 3) ∧
    ((⟨Severity.warning, AlertKind.npl_above_guidance⟩ : Alert) ∈
        alerts_of t c roa npl ltd cov ↔ (¬(npl > 3) ∧ npl > 2)) ∧
    ((⟨Severity.warning, AlertKind.ltd_exceeds_100⟩ : Alert) ∈
        alerts_of t c roa npl ltd cov ↔ ltd > 100) ∧
    ((⟨Severity.warning, AlertKind.coverage_below_70⟩ : Alert) ∈
        alerts_of t c roa npl ltd cov ↔ cov < 70) := by
  unfold alerts_of alerts_body
  split_ifs <;> simp_all

/-- Witness for C5: healthy metrics produce exactly the synthetic info alert,
and a non-empty list. -/
theorem C5_witness :
    alerts_of 12 12 1 1 80 150 ≠ [] ∧
    alerts_of 12 12 1 1 80 150 = [⟨Severity.info, AlertKind.all_thresholds_met⟩] :=
  ⟨(C5_alert_rules 12 12 1 1 80 150).1,
   (C5_alert_rules 12 12 1 1 80 150).2.1.mpr (by norm_num)⟩

/-- Any list with an entry satisfying the match test yields the first such
entry from the static table scan. -/
theorem find_static_spec (u : String) :
    ∀ l : List (String × String × String),
      (∃ e ∈ l, seq_has e.1.data u.data = true) →
      ∃ e ∈ l, seq_has e.1.data u.data = true ∧ find_static u l = some e.2 := by
  intro l
  induction l with
  | nil =>
    rintro ⟨e, he, _⟩
    simp at he
  | cons a t ih =>
    intro h
    by_cases ha : seq_has a.1.data u.data = true
    · exact ⟨a, List.mem_cons_self a t, ha, by simp [find_static, ha]⟩
    · obtain ⟨e, he, hm⟩ := h
      rcases List.mem_cons.mp he with rfl | he2
      · exact absurd hm ha
      · obtain ⟨e2, he2b, hm2, hf⟩ := ih ⟨e, he2, hm⟩
        exact ⟨e2, List.mem_cons_of_mem a he2b, hm2, by simp [find_static, ha, hf]⟩

/-- C6: when the upper-cased input contains a key of the static CERT table as
a substring, `search_fdic_bank` answers from the table — the returned CERT
and name are those of the first matching entry — and the dynamic registry
search path is never invoked. -/
theorem C6_static_resolution (bank_name : String)
    (h : ∃ e ∈ top_banks_cert, seq_has e.1.data (up_str bank_name).data = true) :
    ∃ e ∈ top_banks_cert, seq_has e.1.data (up_str bank_name).data = true ∧
      search_fdic_bank bank_name = SearchOutcome.static_hit e.2.1 e.2.2 ∧
      ∀ ts, search_fdic_bank bank_name ≠ SearchOutcome.dynamic ts := by
  obtain ⟨e, he, hm, hf⟩ := find_static_spec (up_str bank_name) top_banks_cert h
  have hres : search_fdic_bank bank_name = SearchOutcome.static_hit e.2.1 e.2.2 := by
    unfold search_fdic_bank
    rw [hf]
  refine ⟨e, he, hm, hres, ?_⟩
  intro ts hcontra
  rw [hres] at hcontra
  cases hcontra

/-- Witness for C6: "Wells Fargo Bank N.A." matches the table key
"WELLS FARGO" and resolves statically to CERT 3511. -/
theorem C6_witness :
    search_fdic_bank "Wells Fargo Bank N.A." =
      SearchOutcome.static_hit "3511" "Wells Fargo Bank" := by
  obtain ⟨e, he, hm, hres, hnd⟩ := C6_static_resolution "Wells Fargo Bank N.A."
    ⟨("WELLS FARGO", "3511", "Wells Fargo Bank"), by decide, by decide⟩
  with_unfolding_all rfl

/-- C7: whenever at least one institution yields a latest value, the reported
leader attains the maximum latest value and the laggard the minimum, the
spread equals leader minus laggard, the summary says "at the top" exactly
when the base institution is the leader; in particular base "A" at 1.8
against "B" at 2.5 and "C" at 1.2 gives leader "B", laggard "C", spread 1.3,
and "A" positioned competitively. -/
theorem C7_leader_laggard :
    (∀ (base_bank : String) (bank_latest : List (String × ℚ)), bank_latest ≠ [] →
      ∃ b w : String × ℚ,
        ranking_analysis base_bank bank_latest =
          some ⟨b.1, b.2, w.1, w.2, b.2 - w.2, base_bank == b.1⟩ ∧
        b ∈ bank_latest ∧ w ∈ bank_latest ∧
        (∀ p ∈ bank_latest, p.2 ≤ b.2) ∧ (∀ p ∈ bank_latest, w.2 ≤ p.2) ∧
        ((base_bank == b.1) = true ↔ base_bank = b.1)) ∧
    ranking_analysis "A" [("A", 1.8), ("B", 2.5), ("C", 1.2)] =
      some ⟨"B", 2.5, "C", 1.2, 1.3, false⟩ := by
  constructor
  · intro base l hl
    have hperm := sort_by_perm val_before l
    have hpw := sort_by_pairwise val_before val_before_total val_before_trans l
    cases hs : sort_by val_before l with
    | nil =>
      rw [hs] at hperm
      exact absurd (List.Perm.nil_eq hperm).symm hl
    | cons b t =>
      rw [hs] at hperm hpw
      refine ⟨b, last_of b t, ?_, ?_, ?_, ?_, ?_, beq_iff_eq⟩
      · unfold ranking_analysis
        rw [hs]
      · exact hperm.mem_iff.mp (List.mem_cons_self b t)
      · exact hperm.mem_iff.mp (last_of_mem t b)
      · intro p hp
        have hp2 : p ∈ b :: t := hperm.mem_iff.mpr hp
        rcases pairwise_head_rel b t hpw p hp2 with rfl | hrel
        · exact le_refl _
        · exact of_decide_eq_true hrel
      · intro p hp
        have hp2 : p ∈ b :: t := hperm.mem_iff.mpr hp
        rcases pairwise_last_rel t b hpw p hp2 with heq | hrel
        · rw [heq]
        · exact of_decide_eq_true hrel
  · with_unfolding_all rfl

/-- Witness for C7: a two-bank instance where the base bank leads. -/
theorem C7_witness :
    ranking_analysis "X" [("X", 3), ("Y", 1)] = some ⟨"X", 3, "Y", 1, 2, true⟩ := by
  obtain ⟨b, w, h1, h2, h3, h4, h5, h6⟩ :=
    C7_leader_laggard.1 "X" [("X", 3), ("Y", 1)] (by simp)
  with_unfolding_all rfl

/-- `find?` skips an initial segment in which it finds nothing. -/
theorem find_append_of_none {α : Type} (p : α → Bool) (l1 l2 : List α)
    (h : l1.find? p = none) : (l1 ++ l2).find? p = l2.find? p := by
  induction l1 with
  | nil => simp
  | cons a t ih =>
    cases hpa : p a with
    | true =>
      rw [List.find?_cons_of_pos _ hpa] at h
      cases h
    | false =>
      rw [List.find?_cons_of_neg _ (by simp [hpa])] at h
      rw [List.cons_append, List.find?_cons_of_neg _ (by simp [hpa])]
      exact ih h

/-- Appending a fresh entry to a cache with no exact hit makes the exact
lookup return that entry. -/
theorem lookup_exact_append_of_none (cache : List (String × String)) (name c : String)
    (h : lookup_exact cache name = none) :
    lookup_exact (cache ++ [(name, c)]) name = some c := by
  unfold lookup_exact at h ⊢
  have h2 : cache.find? (fun p => p.1 == name) = none := by
    cases hf : cache.find? (fun p => p.1 == name) with
    | none => rfl
    | some v =>
      rw [hf] at h
      simp at h
  rw [find_append_of_none _ _ _ h2]
  simp

/-- C8 (amended): `compare_banks` holds no cross-invocation result cache; the
only caching is the per-invocation CERT cache — once `get_cert` has resolved
a name (in particular via the dynamic search), a repeated `get_cert` on the
resulting cache returns the same CERT without consulting the search
collaborator at all, and leaves the cache unchanged. -/
theorem C8_cert_memoization (search : String → Option String)
    (cache : List (String × String)) (bank_name c : String)
    (cache2 : List (String × String))
    (h : get_cert search cache bank_name = (some c, cache2)) :
    ∀ search2 : String → Option String,
      get_cert search2 cache2 bank_name = (some c, cache2) := by
  intro search2
  unfold get_cert at h ⊢
  cases he : lookup_exact cache bank_name with
  | some c0 =>
    rw [he] at h
    rw [Prod.mk.injEq] at h
    obtain ⟨h1, rfl⟩ := h
    injection h1 with h1
    subst h1
    rw [he]
  | none =>
    rw [he] at h
    cases hp : lookup_contains cache bank_name with
    | some c0 =>
      rw [hp] at h
      rw [Prod.mk.injEq] at h
      obtain ⟨h1, rfl⟩ := h
      injection h1 with h1
      subst h1
      rw [he, hp]
    | none =>
      rw [hp] at h
      cases hsr : search bank_name with
      | some c0 =>
        rw [hsr] at h
        rw [Prod.mk.injEq] at h
        obtain ⟨h1, rfl⟩ := h
        injection h1 with h1
        subst h1
        rw [lookup_exact_append_of_none cache bank_name c0 he]
      | none =>
        rw [hsr] at h
        rw [Prod.mk.injEq] at h
        exact absurd h.1 (by simp)

/-- Witness for C8: after one dynamically-resolved lookup, the repeat lookup
is served by the cache even under a search collaborator that finds nothing. -/
theorem C8_witness :
    get_cert search_none (bank_certs_cache ++ [("Zions Bancorporation", "994")])
        "Zions Bancorporation" =
      (some "994", bank_certs_cache ++ [("Zions Bancorporation", "994")]) :=
  C8_cert_memoization (fun _ => some "994") bank_certs_cache "Zions Bancorporation" "994"
    (bank_certs_cache ++ [("Zions Bancorporation", "994")]) (by with_unfolding_all rfl)
    search_none

/-- Counterexample to C8 as stated: two invocations of `compare_banks` with
identical arguments are recomputed from the provider — when the provider data
changes between the calls (here: the ROA of the only record moves from 1 to 2),
the outputs differ, so the repeat request is not served from any result
cache. -/
theorem C8_counterexample :
    first_data_value (compare_banks search_none (fun _ => some [cx_rec1])
        "JPMorgan Chase" [] "ROA") = some 1 ∧
    first_data_value (compare_banks search_none (fun _ => some [cx_rec2])
        "JPMorgan Chase" [] "ROA") = some 2 ∧
    decide ((some (1 : ℚ)) = some 2) = false :=
  ⟨by with_unfolding_all rfl, by with_unfolding_all rfl, by with_unfolding_all rfl⟩

/-- C9 (amended): the result of `compare_banks` carries exactly the keys
data, base_bank, peer_banks, analysis and source — never a success flag — for
every combination of collaborators and arguments. -/
theorem C9_result_keys (search : String → Option String)
    (fetch : String → Option (List FdicRec)) (base_bank : String)
    (peer_banks : List String) (metric : String) :
    json_keys (compare_banks search fetch base_bank peer_banks metric) =
      ["data", "base_bank", "peer_banks", "analysis", "source"] ∧
    (json_keys (compare_banks search fetch base_bank peer_banks metric)).contains
        "success" = false :=
  ⟨rfl, by with_unfolding_all rfl⟩

/-- Counterexample to C9 as stated: a concrete `compare_banks` call whose
structured result contains no success indicator on its ordinary path. -/
theorem C9_counterexample :
    json_keys (compare_banks search_none fetch_none "JPMorgan Chase" [] "ROA") =
      ["data", "base_bank", "peer_banks", "analysis", "source"] ∧
    (json_keys (compare_banks search_none fetch_none "JPMorgan Chase" [] "ROA")).contains
        "success" = false :=
  ⟨rfl, by with_unfolding_all rfl⟩

/-- `rec_before` is total. -/
theorem rec_before_total (a b : FdicRec) (h : rec_before a b = false) :
    rec_before b a = true :=
  lex_le_of_not _ _ h

/-- `rec_before` is transitive. -/
theorem rec_before_trans (a b c : FdicRec) (h1 : rec_before a b = true)
    (h2 : rec_before b c = true) : rec_before a c = true :=
  lex_le_trans c.id.data b.id.data a.id.data h2 h1

/-- If `m` has the strictly greatest ID among the elements of `L`, then the
descending stable sort of `L` starts with `m`. -/
theorem sort_head_max (L : List FdicRec) (m : FdicRec) (hm : m ∈ L)
    (hmax : ∀ z ∈ L, z ≠ m → lex_le m.id.data z.id.data = false) :
    ∃ t, sort_by rec_before L = m :: t := by
  have hperm := sort_by_perm rec_before L
  have hpw := sort_by_pairwise rec_before rec_before_total rec_before_trans L
  cases hs : sort_by rec_before L with
  | nil =>
    rw [hs] at hperm
    rw [← List.Perm.nil_eq hperm] at hm
    simp at hm
  | cons b t =>
    rw [hs] at hperm hpw
    by_cases hbm : b = m
    · subst hbm
      exact ⟨t, rfl⟩
    · have hbL : b ∈ L := hperm.mem_iff.mp (List.mem_cons_self b t)
      have h1 : lex_le m.id.data b.id.data = false := hmax b hbL hbm
      have hm2 : m ∈ b :: t := hperm.mem_iff.mpr hm
      rcases pairwise_head_rel b t hpw m hm2 with heq | hrel
      · exact absurd heq.symm hbm
      · rw [show rec_before b m = lex_le m.id.data b.id.data from rfl, h1] at hrel
        cases hrel

/-- C10 (amended): whenever the 2023-2025-filtered records contain a unique
record with the lexicographically greatest ID and its ID parses, the latest
value used for ranking is the metric value of that record, and it is invariant
under every permutation of the order in which the provider returns the
records.  (The unamended claim fails when two filtered records share the
greatest ID: the stable sort then keeps the provider order, see the
counterexample.) -/
theorem C10_latest_by_max_id (metric_key : String) (l : List FdicRec) (m : FdicRec)
    (hm : m ∈ recent_filter l)
    (hmax : ∀ z ∈ recent_filter l, z ≠ m → lex_le m.id.data z.id.data = false)
    (hwf : well_formed_id m.id = true) :
    bank_latest_of metric_key l = some (metric_value metric_key m) ∧
    ∀ l2, List.Perm l l2 →
      bank_latest_of metric_key l2 = some (metric_value metric_key m) := by
  have main : ∀ l3 : List FdicRec, m ∈ recent_filter l3 →
      (∀ z ∈ recent_filter l3, z ≠ m → lex_le m.id.data z.id.data = false) →
      bank_latest_of metric_key l3 = some (metric_value metric_key m) := by
    intro l3 hm3 hmax3
    obtain ⟨t, ht⟩ := sort_head_max (recent_filter l3) m hm3 hmax3
    unfold bank_latest_of good_recs
    rw [ht]
    simp [List.takeWhile_cons, hwf]
  refine ⟨main l hm hmax, ?_⟩
  intro l2 hperm
  have hpf : List.Perm (recent_filter l) (recent_filter l2) := hperm.filter _
  exact main l2 (hpf.mem_iff.mp hm) (fun z hz hne => hmax z (hpf.mem_iff.mpr hz) hne)

/-- Witness for C10: with two distinct period IDs, the newer value 7
is selected, in both provider orders. -/
theorem C10_witness :
    bank_latest_of "ROA" [cx_rec3, cx_rec4] = some (metric_value "ROA" cx_rec4) ∧
    bank_latest_of "ROA" [cx_rec4, cx_rec3] = some (metric_value "ROA" cx_rec4) := by
  obtain ⟨h1, h2⟩ := C10_latest_by_max_id "ROA" [cx_rec3, cx_rec4] cx_rec4
    (by decide) (by decide) (by decide)
  exact ⟨h1, h2 [cx_rec4, cx_rec3] (List.Perm.swap cx_rec4 cx_rec3 [])⟩

/-- Counterexample to C10 as stated: two records sharing the greatest ID but
with different values — permuting the provider order changes the selected
latest value (1 versus 2), so the ranking is not permutation invariant. -/
theorem C10_counterexample :
    bank_latest_of "ROA" [cx_rec1, cx_rec2] = some 1 ∧
    bank_latest_of "ROA" [cx_rec2, cx_rec1] = some 2 ∧
    List.Perm [cx_rec1, cx_rec2] [cx_rec2, cx_rec1] ∧
    decide ((some (1 : ℚ)) = some 2) = false :=
  ⟨by with_unfolding_all rfl, by with_unfolding_all rfl,
   List.Perm.swap cx_rec2 cx_rec1 [], by with_unfolding_all rfl⟩
